import Mathlib

/-!
Shallow embedding of the duplex audio pipeline of the rina voice-companion
client: the playback scheduler, interruption handling, capture gate, mode
state machine and session teardown of src/hooks/useLiveSession.ts, and the
emotion parameter smoothing of src/components/Visualizer.tsx.  Machine real
numbers (AudioContext clock values, buffer durations, RMS loudness,
smoothing parameters) are embedded as rationals.
-/

/-- Dynamic threshold constant used while no remote audio is audible
(useLiveSession.ts line 9). -/
def THRESHOLD_IDLE : ℚ := 0.0001

/-- Gate threshold applied while remote audio is audible (useLiveSession.ts
line 10). -/
def THRESHOLD_SPEAKING : ℚ := 0.01

/-- Mode of the session hook: the useState at useLiveSession.ts line 54. -/
inductive Mode where
  | idle
  | listening
  | speaking
deriving DecidableEq

/-- One AudioBufferSourceNode held in sourcesRef.  started records whether
source.start was called, finished whether playback already ended. -/
structure Source where
  sid : ℕ
  started : Bool
  finished : Bool
deriving DecidableEq

/-- Web Audio semantics of AudioBufferSourceNode.stop: it succeeds (a no-op
past end of playback) whenever start was called, and throws an
InvalidStateError when the node was never started.  none models the throw. -/
def stopSource (s : Source) : Option Source :=
  if s.started then some { s with finished := true } else none

/-- The forEach loop body of useLiveSession.ts line 246: stop each source in
turn with no try-catch, so a throw aborts the iteration.  Returns the list
after the processed stops together with whether a throw escaped. -/
def stopEach : List Source → List Source × Bool
  | [] => ([], false)
  | s :: rest =>
    match stopSource s with
    | none => (s :: rest, true)
    | some s' =>
      let r := stopEach rest
      (s' :: r.1, r.2)

/-- The mutable refs and React state that the hook closures share
(useLiveSession.ts lines 51 to 64).  Audio contexts, the microphone stream
and the session promise are tracked as presence booleans. -/
structure SessionState where
  connected : Bool
  mode : Mode
  inputCtx : Bool
  outputCtx : Bool
  inputStream : Bool
  sources : List Source
  nextStartTime : ℚ
  sessionHandle : Bool
deriving DecidableEq

/-- Scheduling step of the onmessage handler (useLiveSession.ts lines 264 to
271): read now, reset nextStartTime to now + 0.05 on underrun, start the
source at nextStartTime, then advance nextStartTime by the buffer duration.
Returns the start time passed to source.start and the new nextStartTime. -/
def scheduleChunk (nextStartTime now d : ℚ) : ℚ × ℚ :=
  let start := if nextStartTime < now then now + 0.05 else nextStartTime
  (start, start + d)

/-- Iterated scheduling of inbound chunks: each list entry carries the output
clock value read at its scheduling moment and the decoded duration; the
result lists the start times passed to source.start. -/
def runSchedule : ℚ → List (ℚ × ℚ) → List ℚ
  | _, [] => []
  | nst, (now, d) :: rest =>
    (scheduleChunk nst now d).1 :: runSchedule (scheduleChunk nst now d).2 rest

/-- No-underrun condition of a chunk sequence: at each arrival the current
output clock value does not exceed the pending nextStartTime. -/
def noUnderrun : ℚ → List (ℚ × ℚ) → Bool
  | _, [] => true
  | nst, (now, d) :: rest =>
    decide (now ≤ nst) && noUnderrun (scheduleChunk nst now d).2 rest

/-- Pairwise separation of scheduled playback windows, on a list of pairs of
start time and duration: consecutive start times are non-decreasing and each
window ends no later than the next window starts. -/
def WindowsSeparated : List (ℚ × ℚ) → Prop
  | [] => True
  | [_] => True
  | (s1, d1) :: (s2, d2) :: rest =>
    s1 ≤ s2 ∧ s1 + d1 ≤ s2 ∧ WindowsSeparated ((s2, d2) :: rest)

/-- Inbound remote messages (useLiveSession.ts lines 240 to 283): an
interruption control message, an audio chunk whose decodeAudioData outcome is
modelled by the decodeOk oracle together with the decoded duration and the
identity of the buffer source created for it, or a message with no audio
payload. -/
inductive ServerMsg where
  | interrupted
  | audio (decodeOk : Bool) (duration : ℚ) (sid : ℕ)
  | noAudio
deriving DecidableEq

/-- The onmessage handler (useLiveSession.ts lines 240 to 283).  now is the
output clock value read after the decode completes.  The second component
records whether an exception escaped the handler invocation.  On
interruption: stop every source, clear the set, zero nextStartTime, set mode
listening.  On an audio message with the output context present: set mode
speaking, then decode; on decode success schedule the chunk and add the
started source to the set, on decode failure the await throws and nothing
further runs. -/
def onmessage (now : ℚ) (msg : ServerMsg) (st : SessionState) :
    SessionState × Bool :=
  match msg with
  | ServerMsg.interrupted =>
    let r := stopEach st.sources
    if r.2 then ({ st with sources := r.1 }, true)
    else ({ st with sources := [], nextStartTime := 0, mode := Mode.listening },
      false)
  | ServerMsg.audio decodeOk d sid =>
    if st.outputCtx then
      let st1 := { st with mode := Mode.speaking }
      if decodeOk then
        let sched := scheduleChunk st1.nextStartTime now d
        ({ st1 with
            nextStartTime := sched.2
            sources := st1.sources ++
              [{ sid := sid, started := true, finished := false }] },
          false)
      else (st1, true)
    else (st, false)
  | ServerMsg.noAudio => (st, false)

/-- Threshold selection of the dynamic noise gate (useLiveSession.ts lines
217 and 218). -/
def currentThreshold (isAiSpeaking : Bool) : ℚ :=
  if isAiSpeaking then THRESHOLD_SPEAKING else THRESHOLD_IDLE

/-- The onaudioprocess capture gate (useLiveSession.ts lines 206 to 234)
given the RMS loudness computed for the frame: below the selected threshold
the frame is dropped (no send, no state change); otherwise the frame is sent
and, when the remote is not audible, mode is set to listening.  The second
component records whether the frame was transmitted. -/
def onaudioprocess (rms : ℚ) (st : SessionState) : SessionState × Bool :=
  let isAiSpeaking : Bool := decide (0 < st.sources.length)
  if rms < currentThreshold isAiSpeaking then (st, false)
  else if isAiSpeaking then (st, true)
  else ({ st with mode := Mode.listening }, true)

/-- Observable steps of the disconnect teardown, in execution order. -/
inductive TeardownStep where
  | setDisconnected
  | setModeIdle
  | closeInputCtx
  | closeOutputCtx
  | stopStreamTracks
  | stopOneSource (sid : ℕ)
  | clearSources
  | forgetHandle
deriving DecidableEq

/-- The disconnect teardown (useLiveSession.ts lines 66 to 93): set
disconnected and mode idle, close the input then the output audio context
when present, stop the microphone stream tracks when present, stop each
pending source inside its own try-catch (so a stop failure never escapes),
clear the set, and forget the session promise.  nextStartTime is never
touched.  Returns the final state and the emitted step trace. -/
def disconnect (st : SessionState) : SessionState × List TeardownStep :=
  let tCtxIn : List TeardownStep :=
    if st.inputCtx then [TeardownStep.closeInputCtx] else []
  let tCtxOut : List TeardownStep :=
    if st.outputCtx then [TeardownStep.closeOutputCtx] else []
  let tStream : List TeardownStep :=
    if st.inputStream then [TeardownStep.stopStreamTracks] else []
  let tSources : List TeardownStep :=
    st.sources.map (fun s => TeardownStep.stopOneSource s.sid)
  ({ st with
      connected := false
      mode := Mode.idle
      inputCtx := false
      outputCtx := false
      inputStream := false
      sources := []
      sessionHandle := false },
    [TeardownStep.setDisconnected, TeardownStep.setModeIdle] ++ tCtxIn ++
      tCtxOut ++ tStream ++ tSources ++
      [TeardownStep.clearSources, TeardownStep.forgetHandle])

/-- Teardown ordering asserted by the specification: capture stream stopped
before the source set is stopped and cleared, the set cleared before the
audio contexts are released, and the contexts released before the remote
channel handle is forgotten. -/
def ClaimedTeardownOrder (tr : List TeardownStep) : Prop :=
  tr.indexOf TeardownStep.stopStreamTracks < tr.indexOf TeardownStep.clearSources ∧
  tr.indexOf TeardownStep.clearSources < tr.indexOf TeardownStep.closeInputCtx ∧
  tr.indexOf TeardownStep.closeInputCtx < tr.indexOf TeardownStep.forgetHandle

/-- Effects of connect (useLiveSession.ts lines 95 to 302) and its onopen
callback (lines 188 to 192) on the shared state: audio contexts, microphone
stream and session promise are set up and mode becomes listening.  Neither
nextStartTime nor the source set is written. -/
def connectOpen (st : SessionState) : SessionState :=
  { st with
      connected := true
      mode := Mode.listening
      inputCtx := true
      outputCtx := true
      inputStream := true
      sessionHandle := true }

/-- Grace delay of the onended handler (useLiveSession.ts line 279), in
seconds. -/
def graceWindow : ℚ := 0.2

/-- Whole-system state for the event semantics: the shared hook state, the
output clock, and the fire times of pending grace timers. -/
structure SysState where
  sess : SessionState
  clock : ℚ
  timers : List ℚ
deriving DecidableEq

/-- Events of the cooperative event loop: an inbound message, the onended
callback of a scheduled source, a pending grace timer firing, a capture
frame with its RMS loudness, or time passing. -/
inductive Event where
  | msg (m : ServerMsg)
  | ended (sid : ℕ)
  | timer
  | frame (rms : ℚ)
  | wait (d : ℚ)
deriving DecidableEq

/-- One event-loop step; none marks an event that cannot occur in the state.
msg runs the onmessage handler at the current clock (audio durations are
nonnegative).  ended (useLiveSession.ts lines 274 to 281) removes the source
and, when the set became empty, registers a grace timer.  timer fires a due
grace timer and sets mode listening when the set is still empty (line 278).
frame runs the capture gate.  wait advances the clock but cannot pass a
pending timer fire time. -/
def step (s : SysState) (e : Event) : Option SysState :=
  match e with
  | Event.msg (ServerMsg.audio dOk d sid) =>
    if 0 ≤ d then
      some { s with sess := (onmessage s.clock (ServerMsg.audio dOk d sid) s.sess).1 }
    else none
  | Event.msg m => some { s with sess := (onmessage s.clock m s.sess).1 }
  | Event.ended sid =>
    if (s.sess.sources.map Source.sid).contains sid then
      let rest := s.sess.sources.filter (fun src => src.sid != sid)
      some { s with
          sess := { s.sess with sources := rest }
          timers := if rest.isEmpty then s.timers ++ [s.clock + graceWindow]
            else s.timers }
    else none
  | Event.timer =>
    match s.timers.find? (fun t => decide (t ≤ s.clock)) with
    | some t =>
      some { s with
          timers := s.timers.erase t
          sess := if s.sess.sources.isEmpty then
              { s.sess with mode := Mode.listening }
            else s.sess }
    | none => none
  | Event.frame rms => some { s with sess := (onaudioprocess rms s.sess).1 }
  | Event.wait d =>
    if 0 ≤ d ∧ ∀ t ∈ s.timers, s.clock + d ≤ t then
      some { s with clock := s.clock + d }
    else none

/-- Run a list of events from a state; none when some event cannot occur. -/
def run : SysState → List Event → Option SysState
  | s, [] => some s
  | s, e :: rest =>
    match step s e with
    | some s' => run s' rest
    | none => none

/-- Total time advanced by the wait events of a trace. -/
def elapsed : List Event → ℚ
  | [] => 0
  | Event.wait d :: rest => d + elapsed rest
  | _ :: rest => elapsed rest

/-- The source set is empty in every state along the trace, including the
initial and final ones. -/
def AllEmptyAlong : SysState → List Event → Prop
  | s, [] => s.sess.sources = []
  | s, e :: rest =>
    s.sess.sources = [] ∧ ∃ s', step s e = some s' ∧ AllEmptyAlong s' rest

/-- Shared hook state right after a successful connect. -/
def initSession : SessionState :=
  { connected := true
    mode := Mode.listening
    inputCtx := true
    outputCtx := true
    inputStream := true
    sources := []
    nextStartTime := 0
    sessionHandle := true }

/-- Whole-system state right after a successful connect. -/
def initSys : SysState := { sess := initSession, clock := 0, timers := [] }

/-- Formalization of the temporal claim: in every execution from the
connected state, if the source set is empty along a trailing trace segment
whose waits total more than the grace window, the final mode is not
speaking. -/
def claimC9 : Prop :=
  ∀ (tr1 tr2 : List Event) (s1 s2 : SysState),
    run initSys tr1 = some s1 → run s1 tr2 = some s2 →
    AllEmptyAlong s1 tr2 → graceWindow < elapsed tr2 →
    s2.sess.mode ≠ Mode.speaking

/-- Formalization of the per-message atomicity asserted for decode failures:
a failed-decode audio message leaves the shared state exactly as it was. -/
def c8Atomicity : Prop :=
  ∀ (now d : ℚ) (sid : ℕ) (st : SessionState),
    st.outputCtx = true →
    (onmessage now (ServerMsg.audio false d sid) st).1 = st

/-- Number of frequency bins sampled per render tick (Visualizer.tsx line
36). -/
def bufferLength : ℕ := 256

/-- Sum of the byte frequency bins (Visualizer.tsx line 52). -/
def binSum (bins : List ℕ) : ℕ := List.foldl (fun a b => a + b) 0 bins

/-- Index-weighted sum of the byte frequency bins (Visualizer.tsx lines 55
to 57), accumulating from the given first index. -/
def weightedBinSum : ℕ → List ℕ → ℕ
  | _, [] => 0
  | i, b :: rest => i * b + weightedBinSum (i + 1) rest

/-- Average bin magnitude of a render tick (Visualizer.tsx lines 45 to 53):
zero unless the visualization is active with an analyzer attached. -/
def tickAverage (isActive : Bool) (bins : List ℕ) : ℚ :=
  if isActive then (binSum bins : ℚ) / (bufferLength : ℚ) else 0

/-- Spectral centroid of a render tick (Visualizer.tsx lines 55 to 60): zero
when inactive or when the bin sum is zero. -/
def tickCentroid (isActive : Bool) (bins : List ℕ) : ℚ :=
  if isActive ∧ 0 < binSum bins then
    (weightedBinSum 0 bins : ℚ) / (binSum bins : ℚ)
  else 0

/-- Normalized energy of a render tick (Visualizer.tsx line 63). -/
def tickEnergy (isActive : Bool) (bins : List ℕ) : ℚ :=
  tickAverage isActive bins / 255

/-- Normalized pitch of a render tick (Visualizer.tsx line 64). -/
def tickPitch (isActive : Bool) (bins : List ℕ) : ℚ :=
  tickCentroid isActive bins / ((bufferLength : ℚ) / 2)

/-- The four exponentially smoothed emotion parameters (Visualizer.tsx lines
14 to 19). -/
structure EmotionVector where
  joy : ℚ
  anger : ℚ
  sorrow : ℚ
  surprise : ℚ
deriving DecidableEq

/-- Per-tick mutable state of the visualizer: the emotion parameters and the
previous tick energy (Visualizer.tsx line 21). -/
structure VizState where
  params : EmotionVector
  prevEnergy : ℚ
deriving DecidableEq

/-- Exponential smoothing step (Visualizer.tsx line 87). -/
def lerp (current target speed : ℚ) : ℚ := current + (target - current) * speed

/-- One render tick of the emotion computation (Visualizer.tsx lines 41 to
92): compute energy and pitch from the frequency bins, derive the four
instantaneous targets (zero unless active with energy above 0.05), smooth
each parameter toward its target at its own rate, and store the energy as
the previous energy of the next tick. -/
def renderTick (isActive : Bool) (bins : List ℕ) (st : VizState) : VizState :=
  let normalizedEnergy := tickEnergy isActive bins
  let normalizedPitch := tickPitch isActive bins
  let targetJoy :=
    if isActive ∧ normalizedEnergy > 0.05 then
      normalizedEnergy * normalizedPitch * 2.0
    else 0
  let targetAnger :=
    if isActive ∧ normalizedEnergy > 0.05 then
      normalizedEnergy * (1 - normalizedPitch) * 1.5
    else 0
  let targetSorrow :=
    if (isActive ∧ normalizedEnergy > 0.05) ∧
        normalizedEnergy < 0.4 ∧ normalizedEnergy > 0.05 then
      (1 - normalizedEnergy) * (1 - normalizedPitch) * 2.0
    else 0
  let targetSurprise :=
    if isActive ∧ normalizedEnergy > 0.05 then
      |normalizedEnergy - st.prevEnergy| * 10.0
    else 0
  { params :=
      { joy := lerp st.params.joy targetJoy 0.05
        anger := lerp st.params.anger targetAnger 0.05
        sorrow := lerp st.params.sorrow targetSorrow 0.02
        surprise := lerp st.params.surprise targetSurprise 0.1 }
    prevEnergy := normalizedEnergy }

/-- Iterated render ticks driven by a per-tick input sequence of activity
flag and frequency bins. -/
def evolve (inputs : ℕ → Bool × List ℕ) (st : VizState) : ℕ → VizState
  | 0 => st
  | n + 1 => renderTick (inputs n).1 (inputs n).2 (evolve inputs st n)

/-- Concrete connected state with one started and already finished source
and a nonzero nextStartTime, used to instantiate the theorems. -/
def sampleSt : SessionState :=
  { initSession with
      sources := [{ sid := 1, started := true, finished := true }]
      nextStartTime := 3 }

/-- Frequency bins concentrating all magnitude in the top quarter of the
spectrum: 192 empty bins followed by 64 bins at full magnitude 255. -/
def c7Bins : List ℕ := List.replicate 192 0 ++ List.replicate 64 255

/-- Visualizer state with all emotion parameters and previous energy zero,
as at avatar startup (Visualizer.tsx lines 14 to 21). -/
def c7Init : VizState :=
  { params := { joy := 0, anger := 0, sorrow := 0, surprise := 0 }
    prevEnergy := 0 }

/-- Constant inactive tick input sequence (no frequency data). -/
def c7wIn : ℕ → Bool × List ℕ := fun _ => (false, [])

/-- Visualizer state with every emotion parameter at 1. -/
def c7wSt : VizState :=
  { params := { joy := 1, anger := 1, sorrow := 1, surprise := 1 }
    prevEnergy := 0 }

/-- System state holding one started, finished source, clock 0, no timer. -/
def c9EndSt : SysState :=
  { sess := { initSession with
        sources := [{ sid := 7, started := true, finished := true }] }
    clock := 0
    timers := [] }

/-- System state after the last source ended: empty set and a grace timer
registered at clock 0. -/
def c9EndSt' : SysState :=
  { sess := initSession, clock := 0, timers := [(0 : ℚ) + graceWindow] }

/-- System state with an empty source set and one due grace timer. -/
def c9TimerSt : SysState :=
  { sess := initSession, clock := 0, timers := [(0 : ℚ)] }

/-- System state after the due grace timer fired. -/
def c9TimerSt' : SysState :=
  { sess := initSession, clock := 0, timers := [] }

/-- System state reached from initSys by one failed-decode audio message:
mode speaking, empty source set, no pending timer. -/
def c9s1 : SysState :=
  { sess := { initSession with mode := Mode.speaking }, clock := 0, timers := [] }

/-- System state reached from c9s1 by waiting one second; the clock value is
kept in the unevaluated form the step function produces. -/
def c9s2 : SysState :=
  { sess := { initSession with mode := Mode.speaking }, clock := 0 + 1,
    timers := [] }

/-- System state with a nonzero pending nextStartTime. -/
def c10Sys : SysState :=
  { sess := { initSession with nextStartTime := 5 }, clock := 0, timers := [] }

/-- System state after the interruption zeroed nextStartTime. -/
def c10Sys' : SysState :=
  { sess := { initSession with nextStartTime := 0 }, clock := 0, timers := [] }

theorem scheduleChunk_no_underrun (nst now d : ℚ) (h : now ≤ nst) :
    scheduleChunk nst now d = (nst, nst + d) := by
  simp only [scheduleChunk]
  rw [if_neg (not_lt.mpr h)]

theorem noUnderrun_cons {nst now d : ℚ} {rest : List (ℚ × ℚ)}
    (h : noUnderrun nst ((now, d) :: rest) = true) :
    now ≤ nst ∧ noUnderrun (nst + d) rest = true := by
  rw [noUnderrun, Bool.and_eq_true] at h
  obtain ⟨h1, h2⟩ := h
  have hle : now ≤ nst := of_decide_eq_true h1
  refine ⟨hle, ?_⟩
  rw [scheduleChunk_no_underrun _ _ _ hle] at h2
  simpa using h2

theorem runSchedule_cons {nst now d : ℚ} (rest : List (ℚ × ℚ)) (h : now ≤ nst) :
    runSchedule nst ((now, d) :: rest) = nst :: runSchedule (nst + d) rest := by
  simp [runSchedule, scheduleChunk_no_underrun _ _ _ h]

theorem runSchedule_sep :
    ∀ (chunks : List (ℚ × ℚ)) (nst : ℚ),
      noUnderrun nst chunks = true → (∀ p ∈ chunks, 0 ≤ p.2) →
      WindowsSeparated ((runSchedule nst chunks).zip (chunks.map Prod.snd)) ∧
      ∀ x ∈ runSchedule nst chunks, nst ≤ x := by
  intro chunks
  induction chunks with
  | nil =>
    intro nst _ _
    exact ⟨trivial, by intro x hx; cases hx⟩
  | cons p rest ih =>
    obtain ⟨now, d⟩ := p
    intro nst hnu hd
    obtain ⟨h1, h2⟩ := noUnderrun_cons hnu
    have hd0 : 0 ≤ d := hd (now, d) (List.mem_cons_self _ _)
    have hdr : ∀ q ∈ rest, 0 ≤ q.2 := fun q hq => hd q (List.mem_cons_of_mem _ hq)
    obtain ⟨ihWS, ihLB⟩ := ih (nst + d) h2 hdr
    rw [runSchedule_cons rest h1]
    constructor
    · cases rest with
      | nil => simp [runSchedule, WindowsSeparated]
      | cons q r2 =>
        obtain ⟨n2, d2⟩ := q
        obtain ⟨h21, _⟩ := noUnderrun_cons h2
        rw [runSchedule_cons r2 h21] at ihWS ⊢
        simp only [List.map_cons, List.zip_cons_cons, WindowsSeparated] at ihWS ⊢
        exact ⟨by linarith, by linarith, ihWS⟩
    · intro x hx
      rcases List.mem_cons.mp hx with hx | hx
      · exact le_of_eq hx.symm
      · exact le_trans (by linarith) (ihLB x hx)

/-- Claim C1: for every chunk sequence processed by the onmessage scheduling
path with no interruption and no underrun, the computed start times are
non-decreasing and no playback window overlaps the next one; in particular
two chunks of duration 1.0s with nextStartTime initially 5.0 and the clock
below 5.0 at both arrivals are scheduled at 5.0 and 6.0. -/
theorem c1_schedule_no_overlap :
    (∀ (nst : ℚ) (chunks : List (ℚ × ℚ)),
        noUnderrun nst chunks = true → (∀ p ∈ chunks, 0 ≤ p.2) →
        WindowsSeparated ((runSchedule nst chunks).zip (chunks.map Prod.snd))) ∧
    (∀ now1 now2 : ℚ, now1 < 5 → now2 < 5 →
        runSchedule 5 [(now1, 1), (now2, 1)] = [5, 6]) := by
  constructor
  · intro nst chunks h1 h2
    exact (runSchedule_sep chunks nst h1 h2).1
  · intro now1 now2 h1 h2
    rw [runSchedule_cons [(now2, 1)] (le_of_lt h1)]
    rw [runSchedule_cons [] (by linarith)]
    norm_num [runSchedule]

/-- Claim C1 witness: the scheduling theorem applied at concrete inputs. -/
theorem c1_schedule_no_overlap_witness :
    (noUnderrun 5 [((4 : ℚ), (1 : ℚ))] = true ∧
      (∀ p ∈ [((4 : ℚ), (1 : ℚ))], 0 ≤ p.2) ∧
      WindowsSeparated
        ((runSchedule 5 [((4 : ℚ), (1 : ℚ))]).zip
          ([((4 : ℚ), (1 : ℚ))].map Prod.snd))) ∧
    ((4 : ℚ) < 5 ∧ runSchedule 5 [(4, 1), (4, 1)] = [5, 6]) :=
  ⟨⟨by decide, by decide,
      c1_schedule_no_overlap.1 5 [(4, 1)] (by decide) (by decide)⟩,
    ⟨by decide, c1_schedule_no_overlap.2 4 4 (by decide) (by decide)⟩⟩

/-- Claim C3: a chunk arriving when nextStartTime is behind the clock resets
nextStartTime to now + 0.05 before the source starts and then advances it by
the chunk duration; a 0.5s chunk with now 10.0 and stale nextStartTime 9.0
is scheduled at 10.05, not 9.5, and nextStartTime becomes 10.55. -/
theorem c3_underrun_reset :
    (∀ nst now d : ℚ, nst < now →
        scheduleChunk nst now d = (now + 0.05, now + 0.05 + d)) ∧
    scheduleChunk 9 10 0.5 = (10.05, 10.55) := by
  constructor
  · intro nst now d h
    simp only [scheduleChunk]
    rw [if_pos h]
  · norm_num [scheduleChunk]

/-- Claim C3 witness: the underrun theorem applied at concrete inputs. -/
theorem c3_underrun_reset_witness :
    (9 : ℚ) < 10 ∧ scheduleChunk 9 10 1 = (10 + 0.05, 10 + 0.05 + 1) :=
  ⟨by decide, c3_underrun_reset.1 9 10 1 (by decide)⟩

theorem stopEach_ok (l : List Source) (h : ∀ s ∈ l, s.started = true) :
    stopEach l = (l.map (fun s => { s with finished := true }), false) := by
  induction l with
  | nil => rfl
  | cons s rest ih =>
    have hs : s.started = true := h s (List.mem_cons_self _ _)
    have hr := ih (fun x hx => h x (List.mem_cons_of_mem _ hx))
    simp [stopEach, stopSource, hs, hr]

/-- Claim C2: an interruption message, from any scheduler state whose
pending sources were all started, stops them, clears the set to empty,
resets nextStartTime to 0 and sets mode to listening, synchronously within
that handler invocation. -/
theorem c2_interruption_clears (now : ℚ) (st : SessionState)
    (h : ∀ s ∈ st.sources, s.started = true) :
    onmessage now ServerMsg.interrupted st =
      ({ st with sources := [], nextStartTime := 0, mode := Mode.listening },
        false) := by
  simp [onmessage, stopEach_ok st.sources h]

/-- Claim C2 witness: the interruption theorem applied at a concrete
state. -/
theorem c2_interruption_clears_witness :
    (∀ s ∈ sampleSt.sources, s.started = true) ∧
    onmessage 0 ServerMsg.interrupted sampleSt =
      ({ sampleSt with
          sources := []
          nextStartTime := 0
          mode := Mode.listening }, false) :=
  ⟨by decide, c2_interruption_clears 0 sampleSt (by decide)⟩

/-- Claim C6: in both source-stopping paths, the interruption handler and
the teardown, stopping an already finished (but started) source is a benign
no-op: no error escapes and the surrounding operation still clears the set
and resets state. -/
theorem c6_stop_benign (now : ℚ) (st : SessionState)
    (h : ∀ s ∈ st.sources, s.started = true) :
    (∀ s ∈ st.sources, stopSource s = some { s with finished := true }) ∧
    (onmessage now ServerMsg.interrupted st).2 = false ∧
    (onmessage now ServerMsg.interrupted st).1.sources = [] ∧
    (onmessage now ServerMsg.interrupted st).1.nextStartTime = 0 ∧
    (disconnect st).1.sources = [] := by
  have hse := stopEach_ok st.sources h
  refine ⟨fun s hs => ?_, ?_, ?_, ?_, rfl⟩
  · simp [stopSource, h s hs]
  all_goals simp [onmessage, hse]

/-- Claim C6 witness: the benign-stop theorem applied at a concrete state
holding a finished source. -/
theorem c6_stop_benign_witness :
    (∀ s ∈ sampleSt.sources, s.started = true) ∧
    ((∀ s ∈ sampleSt.sources, stopSource s = some { s with finished := true }) ∧
      (onmessage 0 ServerMsg.interrupted sampleSt).2 = false ∧
      (onmessage 0 ServerMsg.interrupted sampleSt).1.sources = [] ∧
      (onmessage 0 ServerMsg.interrupted sampleSt).1.nextStartTime = 0 ∧
      (disconnect sampleSt).1.sources = []) :=
  ⟨by decide, c6_stop_benign 0 sampleSt (by decide)⟩

theorem thresholdIdle_pos : (0 : ℚ) < THRESHOLD_IDLE := by
  norm_num [THRESHOLD_IDLE]

/-- Claim C4: the capture gate compares each frame RMS against
THRESHOLD_SPEAKING exactly when the scheduled source set is non-empty at
that frame and against THRESHOLD_IDLE otherwise, and a frame whose RMS is
below the selected threshold is dropped with no transmission and no state
change. -/
theorem c4_gate_threshold :
    (∀ st : SessionState,
        currentThreshold (decide (0 < st.sources.length)) = THRESHOLD_SPEAKING ↔
          st.sources ≠ []) ∧
    (∀ (rms : ℚ) (st : SessionState),
        rms < currentThreshold (decide (0 < st.sources.length)) →
        onaudioprocess rms st = (st, false)) := by
  constructor
  · intro st
    cases hs : st.sources with
    | nil => norm_num [hs, currentThreshold, THRESHOLD_IDLE, THRESHOLD_SPEAKING]
    | cons a l => simp [hs, currentThreshold]
  · intro rms st h
    simp only [onaudioprocess]
    rw [if_pos h]

/-- Claim C4 witness: the gate theorem applied to a dropped frame in the
idle state and to the threshold selection in a speaking state. -/
theorem c4_gate_threshold_witness :
    ((-1 : ℚ) < currentThreshold (decide (0 < initSession.sources.length)) ∧
      onaudioprocess (-1) initSession = (initSession, false)) ∧
    (currentThreshold (decide (0 < sampleSt.sources.length)) = THRESHOLD_SPEAKING ∧
      sampleSt.sources ≠ []) :=
  ⟨⟨lt_trans (by decide : (-1 : ℚ) < 0) thresholdIdle_pos,
      c4_gate_threshold.2 (-1) initSession
        (lt_trans (by decide : (-1 : ℚ) < 0) thresholdIdle_pos)⟩,
    ⟨(c4_gate_threshold.1 sampleSt).mpr (by decide), by decide⟩⟩

/-- Claim C5 counterexample: the teardown trace of a fully populated state
releases the audio contexts before the capture stream is stopped and before
the source set is cleared, violating the order the claim asserts. -/
theorem c5_teardown_order_counterexample :
    ¬ ClaimedTeardownOrder (disconnect sampleSt).2 := by
  unfold ClaimedTeardownOrder
  decide

/-- Claim C5 (amended): teardown marks the session disconnected and sets
mode idle, then releases the audio contexts, then stops the capture stream,
then stops (each stop guarded so a failure cannot escape) and clears every
source set member, then forgets the channel handle; steps for absent
resources are skipped. -/
theorem c5_teardown_amended (st : SessionState) (h1 : st.inputCtx = true)
    (h2 : st.outputCtx = true) (h3 : st.inputStream = true) :
    (disconnect st).2 =
      [TeardownStep.setDisconnected, TeardownStep.setModeIdle,
        TeardownStep.closeInputCtx, TeardownStep.closeOutputCtx,
        TeardownStep.stopStreamTracks] ++
        st.sources.map (fun s => TeardownStep.stopOneSource s.sid) ++
        [TeardownStep.clearSources, TeardownStep.forgetHandle] ∧
    (disconnect st).1.sources = [] ∧
    (disconnect st).1.mode = Mode.idle ∧
    (disconnect st).1.sessionHandle = false := by
  refine ⟨?_, rfl, rfl, rfl⟩
  simp [disconnect, h1, h2, h3]

/-- Claim C5 amended witness: the teardown theorem applied at a concrete
fully populated state. -/
theorem c5_teardown_amended_witness :
    (sampleSt.inputCtx = true ∧ sampleSt.outputCtx = true ∧
      sampleSt.inputStream = true) ∧
    (disconnect sampleSt).2 =
      [TeardownStep.setDisconnected, TeardownStep.setModeIdle,
        TeardownStep.closeInputCtx, TeardownStep.closeOutputCtx,
        TeardownStep.stopStreamTracks] ++
        sampleSt.sources.map (fun s => TeardownStep.stopOneSource s.sid) ++
        [TeardownStep.clearSources, TeardownStep.forgetHandle] :=
  ⟨⟨rfl, rfl, rfl⟩, (c5_teardown_amended sampleSt rfl rfl rfl).1⟩

/-- Claim C8 counterexample: a failed-decode audio message is not atomic on
the shared state: from the freshly connected state it flips mode to
speaking even though no chunk was scheduled. -/
theorem c8_atomicity_counterexample : ¬ c8Atomicity := by
  intro h
  have h2 := congrArg (fun s => s.mode) (h 0 1 0 initSession rfl)
  exact absurd h2 (by decide)

/-- Claim C8 (amended): when decoding an inbound chunk fails the chunk is
dropped: the source set and nextStartTime are unchanged, the error escapes
that invocation only, and the next audio message is still scheduled
normally; but the handler is not atomic: mode was already set to speaking
before the decode and stays so. -/
theorem c8_decode_failure_amended (now d : ℚ) (sid : ℕ) (st : SessionState)
    (h : st.outputCtx = true) :
    (onmessage now (ServerMsg.audio false d sid) st).1.sources = st.sources ∧
    (onmessage now (ServerMsg.audio false d sid) st).1.nextStartTime =
      st.nextStartTime ∧
    (onmessage now (ServerMsg.audio false d sid) st).2 = true ∧
    (onmessage now (ServerMsg.audio false d sid) st).1.mode = Mode.speaking ∧
    (∀ (now2 d2 : ℚ) (sid2 : ℕ),
      (onmessage now2 (ServerMsg.audio true d2 sid2)
          (onmessage now (ServerMsg.audio false d sid) st).1).1.sources =
        st.sources ++ [{ sid := sid2, started := true, finished := false }]) := by
  simp [onmessage, h]

/-- Claim C8 amended witness: the decode-failure theorem applied at the
connected state. -/
theorem c8_decode_failure_amended_witness :
    initSession.outputCtx = true ∧
    (onmessage 0 (ServerMsg.audio false 1 0) initSession).1.sources =
      initSession.sources ∧
    (onmessage 0 (ServerMsg.audio false 1 0) initSession).1.mode =
      Mode.speaking :=
  ⟨rfl, (c8_decode_failure_amended 0 1 0 initSession rfl).1,
    (c8_decode_failure_amended 0 1 0 initSession rfl).2.2.2.1⟩

theorem onaudioprocess_nextStartTime (rms : ℚ) (st : SessionState) :
    (onaudioprocess rms st).1.nextStartTime = st.nextStartTime := by
  simp only [onaudioprocess]
  split
  · rfl
  · split <;> rfl

/-- Claim C10: the disconnect teardown leaves nextStartTime unchanged and a
subsequent connect does not reset it either, so the next session makes its
first scheduling decision from the stale value; and among the event-loop
steps only the interruption message ever resets a nonzero nextStartTime
to 0. -/
theorem c10_disconnect_preserves_nextStartTime :
    (∀ st : SessionState, (disconnect st).1.nextStartTime = st.nextStartTime) ∧
    (∀ st : SessionState,
        (connectOpen (disconnect st).1).nextStartTime = st.nextStartTime) ∧
    (∀ (s s' : SysState) (e : Event), step s e = some s' → 0 ≤ s.clock →
        s.sess.nextStartTime ≠ 0 → s'.sess.nextStartTime = 0 →
        e = Event.msg ServerMsg.interrupted) := by
  refine ⟨fun st => rfl, fun st => rfl, ?_⟩
  intro s s' e hstep hc h0 h0'
  cases e with
  | msg m =>
    cases m with
    | interrupted => rfl
    | audio dOk d sid =>
      exfalso
      simp only [step] at hstep
      by_cases hd : 0 ≤ d
      · rw [if_pos hd] at hstep
        have hs' := Option.some.inj hstep
        subst hs'
        cases hoc : s.sess.outputCtx with
        | false =>
          simp [onmessage, hoc] at h0'
          exact h0 h0'
        | true =>
          cases dOk with
          | false =>
            simp [onmessage, hoc] at h0'
            exact h0 h0'
          | true =>
            simp only [onmessage, hoc] at h0'
            by_cases hlt : s.sess.nextStartTime < s.clock
            · simp [scheduleChunk, hlt] at h0'
              linarith
            · simp [scheduleChunk, hlt] at h0'
              have hpos : 0 < s.sess.nextStartTime :=
                lt_of_le_of_ne (le_trans hc (not_lt.mp hlt)) (Ne.symm h0)
              linarith
      · rw [if_neg hd] at hstep
        exact Option.noConfusion hstep
    | noAudio =>
      exfalso
      simp only [step] at hstep
      have hs' := Option.some.inj hstep
      subst hs'
      simp [onmessage] at h0'
      exact h0 h0'
  | ended sid =>
    exfalso
    simp only [step] at hstep
    split at hstep
    · have hs' := Option.some.inj hstep
      subst hs'
      exact h0 h0'
    · exact Option.noConfusion hstep
  | timer =>
    exfalso
    simp only [step] at hstep
    split at hstep
    · have hs' := Option.some.inj hstep
      subst hs'
      dsimp only at h0'
      split at h0'
      · exact h0 h0'
      · exact h0 h0'
    · exact Option.noConfusion hstep
  | frame rms =>
    exfalso
    simp only [step] at hstep
    have hs' := Option.some.inj hstep
    subst hs'
    dsimp only at h0'
    rw [onaudioprocess_nextStartTime] at h0'
    exact h0 h0'
  | wait d =>
    exfalso
    simp only [step] at hstep
    split at hstep
    · have hs' := Option.some.inj hstep
      subst hs'
      exact h0 h0'
    · exact Option.noConfusion hstep

/-- Claim C10 witness: the preservation clauses applied at a concrete state
and the only-interruption clause applied to a concrete interruption step. -/
theorem c10_disconnect_preserves_witness :
    (disconnect sampleSt).1.nextStartTime = sampleSt.nextStartTime ∧
    (connectOpen (disconnect sampleSt).1).nextStartTime = sampleSt.nextStartTime ∧
    (step c10Sys (Event.msg ServerMsg.interrupted) = some c10Sys' ∧
      (0 : ℚ) ≤ c10Sys.clock ∧ c10Sys.sess.nextStartTime ≠ 0 ∧
      c10Sys'.sess.nextStartTime = 0 ∧
      Event.msg ServerMsg.interrupted = Event.msg ServerMsg.interrupted) :=
  ⟨c10_disconnect_preserves_nextStartTime.1 sampleSt,
    c10_disconnect_preserves_nextStartTime.2.1 sampleSt,
    rfl, by decide, by decide, rfl,
    c10_disconnect_preserves_nextStartTime.2.2 c10Sys c10Sys'
      (Event.msg ServerMsg.interrupted) rfl (by decide) (by decide) rfl⟩

/-- Claim C9 counterexample: after a failed-decode audio message the mode is
speaking with an empty source set and no grace timer pending, and it stays
speaking while a full second, far more than the grace window, elapses with
the set empty throughout. -/
theorem c9_invariant_counterexample : ¬ claimC9 := by
  intro h
  refine h [Event.msg (ServerMsg.audio false 1 0)] [Event.wait 1] c9s1 c9s2
    rfl rfl ⟨rfl, c9s2, rfl, rfl⟩ ?_ rfl
  norm_num [graceWindow, elapsed]

/-- Claim C9 (amended): the grace mechanism itself holds: when the onended
of the last pending source empties the set it registers a grace timer due
one grace window later, and a due grace timer firing while the set is still
empty sets mode to listening; the blanket invariant does not hold because a
decode failure leaves mode speaking with a lastingly empty set. -/
theorem c9_grace_mechanism_amended :
    (∀ (s s' : SysState) (sid : ℕ), step s (Event.ended sid) = some s' →
        s'.sess.sources = [] → s.clock + graceWindow ∈ s'.timers) ∧
    (∀ s s' : SysState, step s Event.timer = some s' →
        s.sess.sources = [] → s'.sess.mode = Mode.listening) := by
  constructor
  · intro s s' sid hstep hempty
    simp only [step] at hstep
    split at hstep
    · have hs' := Option.some.inj hstep
      subst hs'
      dsimp only at hempty ⊢
      simp [hempty]
    · exact Option.noConfusion hstep
  · intro s s' hstep hempty
    simp only [step] at hstep
    split at hstep
    · have hs' := Option.some.inj hstep
      subst hs'
      dsimp only
      simp [hempty]
    · exact Option.noConfusion hstep

/-- Claim C9 amended witness: the grace mechanism applied to a concrete
source-ended step and a concrete timer step. -/
theorem c9_grace_mechanism_witness :
    (step c9EndSt (Event.ended 7) = some c9EndSt' ∧
      c9EndSt'.sess.sources = [] ∧
      c9EndSt.clock + graceWindow ∈ c9EndSt'.timers) ∧
    (step c9TimerSt Event.timer = some c9TimerSt' ∧
      c9TimerSt.sess.sources = [] ∧
      c9TimerSt'.sess.mode = Mode.listening) :=
  ⟨⟨rfl, rfl, c9_grace_mechanism_amended.1 c9EndSt c9EndSt' 7 rfl rfl⟩,
    ⟨rfl, rfl, c9_grace_mechanism_amended.2 c9TimerSt c9TimerSt' rfl rfl⟩⟩

theorem renderTick_zero_energy (a : Bool) (bins : List ℕ) (st : VizState)
    (h : tickEnergy a bins = 0) :
    (renderTick a bins st).params.joy = st.params.joy * (1 - 0.05) ∧
    (renderTick a bins st).params.anger = st.params.anger * (1 - 0.05) ∧
    (renderTick a bins st).params.sorrow = st.params.sorrow * (1 - 0.02) ∧
    (renderTick a bins st).params.surprise = st.params.surprise * (1 - 0.1) := by
  have hcond : ¬ (a = true ∧ tickEnergy a bins > 0.05) := by
    rintro ⟨-, hgt⟩
    rw [h] at hgt
    norm_num at hgt
  have hcond2 : ¬ ((a = true ∧ tickEnergy a bins > 0.05) ∧
      tickEnergy a bins < 0.4 ∧ tickEnergy a bins > 0.05) := by
    rintro ⟨hc, -⟩
    exact hcond hc
  simp only [renderTick, if_neg hcond, if_neg hcond2, lerp]
  refine ⟨by ring, by ring, by ring, by ring⟩

theorem evolve_zero_energy (inputs : ℕ → Bool × List ℕ) (st : VizState)
    (h : ∀ n, tickEnergy (inputs n).1 (inputs n).2 = 0) :
    ∀ n, (evolve inputs st n).params.joy = st.params.joy * (1 - 0.05) ^ n ∧
      (evolve inputs st n).params.anger = st.params.anger * (1 - 0.05) ^ n ∧
      (evolve inputs st n).params.sorrow = st.params.sorrow * (1 - 0.02) ^ n ∧
      (evolve inputs st n).params.surprise = st.params.surprise * (1 - 0.1) ^ n := by
  intro n
  induction n with
  | zero => simp [evolve]
  | succ k ih =>
    obtain ⟨hj, ha, hs, hu⟩ := ih
    obtain ⟨gj, ga, gs, gu⟩ :=
      renderTick_zero_energy (inputs k).1 (inputs k).2 (evolve inputs st k) (h k)
    refine ⟨?_, ?_, ?_, ?_⟩
    · rw [evolve, gj, hj]; ring
    · rw [evolve, ga, ha]; ring
    · rw [evolve, gs, hs]; ring
    · rw [evolve, gu, hu]; ring

theorem geom_abs_antitone (c r : ℚ) (h0 : 0 ≤ r) (h1 : r ≤ 1) (n : ℕ) :
    |c * r ^ (n + 1)| ≤ |c * r ^ n| := by
  rw [abs_mul, abs_mul, abs_pow, abs_pow, abs_of_nonneg h0]
  exact mul_le_mul_of_nonneg_left
    (pow_le_pow_of_le_one h0 h1 (Nat.le_succ n)) (abs_nonneg c)

theorem geom_tendsto_zero (c r : ℚ) (h0 : 0 ≤ r) (h1 : r < 1) :
    Filter.Tendsto (fun n : ℕ => c * r ^ n) Filter.atTop (nhds 0) := by
  have hz := (tendsto_pow_atTop_nhds_zero_of_lt_one h0 h1).const_mul c
  simpa using hz

/-- Claim C7 (amended): under ticks whose energy is 0 each emotion parameter
evolves as its previous value times (1 - rate) to the n, with rates 0.05,
0.05, 0.02 and 0.1, hence its absolute value never increases and it
converges to 0; the claimed range [0, ~1.5] itself does not hold in
general, since anger turns negative when the spectral centroid exceeds half
the bin count. -/
theorem c7_decay_amended (inputs : ℕ → Bool × List ℕ) (st : VizState)
    (h : ∀ n, tickEnergy (inputs n).1 (inputs n).2 = 0) (n : ℕ) :
    ((evolve inputs st n).params.joy = st.params.joy * (1 - 0.05) ^ n ∧
      (evolve inputs st n).params.anger = st.params.anger * (1 - 0.05) ^ n ∧
      (evolve inputs st n).params.sorrow = st.params.sorrow * (1 - 0.02) ^ n ∧
      (evolve inputs st n).params.surprise = st.params.surprise * (1 - 0.1) ^ n) ∧
    (|(evolve inputs st (n + 1)).params.joy| ≤ |(evolve inputs st n).params.joy| ∧
      |(evolve inputs st (n + 1)).params.anger| ≤ |(evolve inputs st n).params.anger| ∧
      |(evolve inputs st (n + 1)).params.sorrow| ≤ |(evolve inputs st n).params.sorrow| ∧
      |(evolve inputs st (n + 1)).params.surprise| ≤
        |(evolve inputs st n).params.surprise|) ∧
    (Filter.Tendsto (fun m => (evolve inputs st m).params.joy)
        Filter.atTop (nhds 0) ∧
      Filter.Tendsto (fun m => (evolve inputs st m).params.anger)
        Filter.atTop (nhds 0) ∧
      Filter.Tendsto (fun m => (evolve inputs st m).params.sorrow)
        Filter.atTop (nhds 0) ∧
      Filter.Tendsto (fun m => (evolve inputs st m).params.surprise)
        Filter.atTop (nhds 0)) := by
  have hf := evolve_zero_energy inputs st h
  refine ⟨hf n, ?_, ?_, ?_, ?_, ?_⟩
  · obtain ⟨hj, ha, hs, hu⟩ := hf n
    obtain ⟨hj', ha', hs', hu'⟩ := hf (n + 1)
    rw [hj, ha, hs, hu, hj', ha', hs', hu']
    exact ⟨geom_abs_antitone _ _ (by norm_num) (by norm_num) n,
      geom_abs_antitone _ _ (by norm_num) (by norm_num) n,
      geom_abs_antitone _ _ (by norm_num) (by norm_num) n,
      geom_abs_antitone _ _ (by norm_num) (by norm_num) n⟩
  · exact (geom_tendsto_zero st.params.joy (1 - 0.05) (by norm_num)
      (by norm_num)).congr (fun m => ((hf m).1).symm)
  · exact (geom_tendsto_zero st.params.anger (1 - 0.05) (by norm_num)
      (by norm_num)).congr (fun m => ((hf m).2.1).symm)
  · exact (geom_tendsto_zero st.params.sorrow (1 - 0.02) (by norm_num)
      (by norm_num)).congr (fun m => ((hf m).2.2.1).symm)
  · exact (geom_tendsto_zero st.params.surprise (1 - 0.1) (by norm_num)
      (by norm_num)).congr (fun m => ((hf m).2.2.2).symm)

/-- Claim C7 amended witness: the decay theorem applied to the constant
inactive input sequence, at tick 3, from parameters all equal to 1. -/
theorem c7_decay_witness :
    (∀ n, tickEnergy (c7wIn n).1 (c7wIn n).2 = 0) ∧
    (((evolve c7wIn c7wSt 3).params.joy = c7wSt.params.joy * (1 - 0.05) ^ 3 ∧
      (evolve c7wIn c7wSt 3).params.anger = c7wSt.params.anger * (1 - 0.05) ^ 3 ∧
      (evolve c7wIn c7wSt 3).params.sorrow = c7wSt.params.sorrow * (1 - 0.02) ^ 3 ∧
      (evolve c7wIn c7wSt 3).params.surprise =
        c7wSt.params.surprise * (1 - 0.1) ^ 3) ∧
    (|(evolve c7wIn c7wSt 4).params.joy| ≤ |(evolve c7wIn c7wSt 3).params.joy| ∧
      |(evolve c7wIn c7wSt 4).params.anger| ≤ |(evolve c7wIn c7wSt 3).params.anger| ∧
      |(evolve c7wIn c7wSt 4).params.sorrow| ≤ |(evolve c7wIn c7wSt 3).params.sorrow| ∧
      |(evolve c7wIn c7wSt 4).params.surprise| ≤
        |(evolve c7wIn c7wSt 3).params.surprise|) ∧
    (Filter.Tendsto (fun m => (evolve c7wIn c7wSt m).params.joy)
        Filter.atTop (nhds 0) ∧
      Filter.Tendsto (fun m => (evolve c7wIn c7wSt m).params.anger)
        Filter.atTop (nhds 0) ∧
      Filter.Tendsto (fun m => (evolve c7wIn c7wSt m).params.sorrow)
        Filter.atTop (nhds 0) ∧
      Filter.Tendsto (fun m => (evolve c7wIn c7wSt m).params.surprise)
        Filter.atTop (nhds 0))) :=
  ⟨fun n => by simp [c7wIn, tickEnergy, tickAverage],
    c7_decay_amended c7wIn c7wSt
      (fun n => by simp [c7wIn, tickEnergy, tickAverage]) 3⟩

set_option maxRecDepth 8000 in
/-- Claim C7 counterexample: a single render tick from the all-zero state on
bins whose magnitude sits in the top quarter of the spectrum drives anger
strictly below 0, outside the claimed range [0, ~1.5]. -/
theorem c7_bounds_counterexample :
    (renderTick true c7Bins c7Init).params.anger < 0 := by
  have hsum : binSum c7Bins = 16320 := by decide
  have hws : weightedBinSum 0 c7Bins = 3647520 := by decide
  have hE : tickEnergy true c7Bins = 1 / 4 := by
    simp only [tickEnergy, tickAverage, hsum, bufferLength]
    norm_num
  have hP : tickPitch true c7Bins = 447 / 256 := by
    simp only [tickPitch, tickCentroid, hsum, hws, bufferLength]
    norm_num
  simp only [renderTick, hE, hP, lerp, c7Init]
  norm_num
